import Mathlib

/-!
Shallow embedding of the PrismaLesson Todo/User REST API.

The embedding models the two Prisma tables (`User`, `Todo`) of
`prisma/migrations/.../migration.sql`, the Prisma-client calls issued by
`src/todo/todo.service.ts` and `src/user/user.service.ts`, and the two HTTP
controllers (`todo.controller.ts`, `user.controller.ts`).

Modelling decisions:
- Machine integers of the store (`id`, `userId`) are `Nat`; SQLite DATETIME
  timestamps are a logical clock `Nat` (`DB.now`), incremented at every write,
  which is all the ordering structure the code relies on.
- `NotFoundException` (HTTP 404) and `BadRequestException` (HTTP 400) become
  the two constructors of `ApiError`; fallible operations return
  `Except ApiError _`. State-changing operations also return the database
  after the call, threaded explicitly (unchanged when the operation throws
  before reaching its write, exactly as in the service code).
- A Prisma record returned with `include: { user: true }` has a `user` key;
  a record returned without `include` has no such key. `TodoView.user :
  Option User` models this: `none` is the absent key (or, for an `include`
  on a dangling foreign key, an empty join, which cannot occur in a
  well-formed store).
-/

/-- A row of the `User` table (migration.sql): integer autoincrement primary
key, required `name`, system timestamps. -/
structure User where
  id : Nat
  name : String
  createdAt : Nat
  updatedAt : Nat
deriving DecidableEq

/-- A row of the `Todo` table (migration.sql): integer autoincrement primary
key, required `title`, `completed` defaulting to false, required foreign key
`userId` referencing `User.id` with ON DELETE CASCADE, system timestamps. -/
structure Todo where
  id : Nat
  title : String
  completed : Bool
  userId : Nat
  createdAt : Nat
  updatedAt : Nat
deriving DecidableEq

/-- The SQLite store: the two tables, the autoincrement counters, and a
logical clock used for the system-managed timestamps. -/
structure DB where
  users : List User
  todos : List Todo
  nextUserId : Nat
  nextTodoId : Nat
  now : Nat
deriving DecidableEq

/-- `NotFoundException` maps to HTTP 404, `BadRequestException` to HTTP 400
(the NestJS exception-to-status mapping used throughout the services). -/
inductive ApiError where
  | notFound (msg : String)
  | badRequest (msg : String)
deriving DecidableEq

/-- `CreateTodoDto`: required `title`, optional `completed`, required
`userId` (fields as documented on `TodoController.create` and used by
`TodoService.create`; the dto file itself only restates them with
validation decorators). -/
structure CreateTodoDto where
  title : String
  completed : Option Bool
  userId : Nat
deriving DecidableEq

/-- `UpdateTodoDto = PartialType(CreateTodoDto)`: every field optional
(src/todo/dto/update-todo.dto.ts). -/
structure UpdateTodoDto where
  title : Option String
  completed : Option Bool
  userId : Option Nat
deriving DecidableEq

/-- `CreateUserDto`: required `name` (src/user/dto/create-user.dto.ts). -/
structure CreateUserDto where
  name : String
deriving DecidableEq

/-- `UpdateUserDto = PartialType(CreateUserDto)`
(src/user/dto/update-user.dto.ts). -/
structure UpdateUserDto where
  name : Option String
deriving DecidableEq

/-- A Todo as serialized to the HTTP response: the row, plus the `user` key
when the query was issued with `include: { user: true }`. -/
structure TodoView where
  todo : Todo
  user : Option User
deriving DecidableEq

/-- A User as serialized to the HTTP response: the row, plus the `todos` key
when the query was issued with `include: { todos: true }`. -/
structure UserView where
  user : User
  todos : Option (List Todo)
deriving DecidableEq

/-- `prisma.user.findUnique({ where: { id } })`. -/
def userFindUnique (db : DB) (id : Nat) : Option User :=
  db.users.find? (fun u => u.id == id)

/-- `prisma.todo.findUnique({ where: { id } })` (without `include`). -/
def todoFindUnique (db : DB) (id : Nat) : Option Todo :=
  db.todos.find? (fun t => t.id == id)

/-- `include: { user: true }` on a Todo row: join the owning User row. -/
def joinUser (db : DB) (t : Todo) : Option User :=
  userFindUnique db t.userId

/-- `include: { todos: true }` on a User row: join the user's Todo rows. -/
def joinTodos (db : DB) (u : User) : List Todo :=
  db.todos.filter (fun t => t.userId == u.id)

/-- `orderBy: { createdAt: 'desc' }` on two Todo rows. -/
def Todo.createdDesc (a b : Todo) : Prop :=
  b.createdAt ≤ a.createdAt

instance : DecidableRel Todo.createdDesc :=
  fun a b => Nat.decLe b.createdAt a.createdAt

instance : IsTotal Todo Todo.createdDesc :=
  ⟨fun a b => Nat.le_total b.createdAt a.createdAt⟩

instance : IsTrans Todo Todo.createdDesc :=
  ⟨fun _ _ _ h1 h2 => Nat.le_trans h2 h1⟩

/-- `orderBy: { createdAt: 'desc' }` on two User rows. -/
def User.createdDesc (a b : User) : Prop :=
  b.createdAt ≤ a.createdAt

instance : DecidableRel User.createdDesc :=
  fun a b => Nat.decLe b.createdAt a.createdAt

instance : IsTotal User User.createdDesc :=
  ⟨fun a b => Nat.le_total b.createdAt a.createdAt⟩

instance : IsTrans User User.createdDesc :=
  ⟨fun _ _ _ h1 h2 => Nat.le_trans h2 h1⟩

/-- `prisma.todo.create({ data: createTodoDto })`: the engine assigns the
autoincrement id, applies the schema default `completed = false` when the
dto omits it, and sets both system timestamps to the write time. -/
def todoCreateRow (db : DB) (dto : CreateTodoDto) : Todo × DB :=
  let t : Todo :=
    { id := db.nextTodoId
      title := dto.title
      completed := dto.completed.getD false
      userId := dto.userId
      createdAt := db.now
      updatedAt := db.now }
  (t, { db with todos := db.todos ++ [t], nextTodoId := db.nextTodoId + 1, now := db.now + 1 })

/-- `prisma.todo.update({ where: { id }, data: updateTodoDto })` applied to
the already-fetched row `t`: fields absent from the dto keep their value,
`updatedAt` is refreshed by the `@updatedAt` schema attribute. -/
def applyTodoUpdate (t : Todo) (dto : UpdateTodoDto) (now : Nat) : Todo :=
  { t with
    title := dto.title.getD t.title
    completed := dto.completed.getD t.completed
    userId := dto.userId.getD t.userId
    updatedAt := now }

/-- The store after `prisma.todo.update` rewrote the row with id `id`. -/
def todoWriteBack (db : DB) (id : Nat) (t' : Todo) : DB :=
  { db with todos := db.todos.map (fun x => if x.id == id then t' else x), now := db.now + 1 }

/-- `prisma.todo.delete({ where: { id } })`: remove the row. -/
def todoDeleteRow (db : DB) (id : Nat) : DB :=
  { db with todos := db.todos.filter (fun x => x.id != id) }

/-- `prisma.user.delete({ where: { id } })`: the storage layer removes the
User row and, through the `Todo_userId_fkey` ON DELETE CASCADE rule of
migration.sql, every Todo row whose `userId` references it. -/
def userDeleteRow (db : DB) (id : Nat) : DB :=
  { db with
    users := db.users.filter (fun x => x.id != id)
    todos := db.todos.filter (fun t => t.userId != id) }

/-- `TodoService.create` (todo.service.ts): look the referenced user up,
throw `BadRequestException` when absent, otherwise insert and return the
new record with `include: { user: true }`. -/
def TodoService.create (db : DB) (dto : CreateTodoDto) :
    Except ApiError TodoView × DB :=
  match userFindUnique db dto.userId with
  | none =>
      (.error (.badRequest ("User with ID " ++ toString dto.userId ++ " not found")), db)
  | some _ =>
      let (t, db') := todoCreateRow db dto
      (.ok ⟨t, joinUser db' t⟩, db')

/-- `TodoService.findAll` (todo.service.ts):
`where: userId ? { userId } : undefined` — the filter is applied only when
the JavaScript value `userId` is truthy, so an absent userId AND a userId
of 0 both leave the result unfiltered; `orderBy: { createdAt: 'desc' }`;
`include: includeUser ? { user: true } : undefined`. -/
def TodoService.findAll (db : DB) (userId : Option Nat) (includeUser : Bool) :
    List TodoView :=
  let filtered :=
    match userId with
    | some uid => if uid != 0 then db.todos.filter (fun t => t.userId == uid) else db.todos
    | none => db.todos
  let sorted := List.insertionSort Todo.createdDesc filtered
  sorted.map (fun t => ⟨t, if includeUser then joinUser db t else none⟩)

/-- `TodoService.findOne` (todo.service.ts): `findUnique` with optional
`include`, throwing `NotFoundException` when no row matches. -/
def TodoService.findOne (db : DB) (id : Nat) (includeUser : Bool) :
    Except ApiError TodoView :=
  match todoFindUnique db id with
  | none => .error (.notFound ("Todo with ID " ++ toString id ++ " not found"))
  | some t => .ok ⟨t, if includeUser then joinUser db t else none⟩

/-- `TodoService.update` (todo.service.ts): `findOne(id)` first (throwing
its 404 when the Todo is absent), then — only if `userId` is part of the
dto — a user existence check throwing `BadRequestException`, then
`prisma.todo.update` returning the row with `include: { user: true }`. -/
def TodoService.update (db : DB) (id : Nat) (dto : UpdateTodoDto) :
    Except ApiError TodoView × DB :=
  match todoFindUnique db id with
  | none =>
      (.error (.notFound ("Todo with ID " ++ toString id ++ " not found")), db)
  | some t =>
      match dto.userId with
      | some uid =>
          match userFindUnique db uid with
          | none =>
              (.error (.badRequest ("User with ID " ++ toString uid ++ " not found")), db)
          | some _ =>
              let t' := applyTodoUpdate t dto db.now
              let db' := todoWriteBack db id t'
              (.ok ⟨t', joinUser db' t'⟩, db')
      | none =>
          let t' := applyTodoUpdate t dto db.now
          let db' := todoWriteBack db id t'
          (.ok ⟨t', joinUser db' t'⟩, db')

/-- `TodoService.remove` (todo.service.ts): `findOne(id)` first (throwing
its 404 when absent), then `prisma.todo.delete`, which returns the deleted
row WITHOUT any `include` — the response carries no `user` key. -/
def TodoService.remove (db : DB) (id : Nat) :
    Except ApiError TodoView × DB :=
  match todoFindUnique db id with
  | none =>
      (.error (.notFound ("Todo with ID " ++ toString id ++ " not found")), db)
  | some t =>
      (.ok ⟨t, none⟩, todoDeleteRow db id)

/-- `UserService.create` (user.service.ts): plain insert, no `include`. -/
def UserService.create (db : DB) (dto : CreateUserDto) : UserView × DB :=
  let u : User :=
    { id := db.nextUserId
      name := dto.name
      createdAt := db.now
      updatedAt := db.now }
  (⟨u, none⟩, { db with users := db.users ++ [u], nextUserId := db.nextUserId + 1, now := db.now + 1 })

/-- `UserService.findAll` (user.service.ts): all users,
`orderBy: { createdAt: 'desc' }`,
`include: includeTodos ? { todos: true } : undefined`. -/
def UserService.findAll (db : DB) (includeTodos : Bool) : List UserView :=
  (List.insertionSort User.createdDesc db.users).map
    (fun u => ⟨u, if includeTodos then some (joinTodos db u) else none⟩)

/-- `UserService.findOne` (user.service.ts): `findUnique` with optional
`include: { todos: true }`, throwing `NotFoundException` when absent. -/
def UserService.findOne (db : DB) (id : Nat) (includeTodos : Bool) :
    Except ApiError UserView :=
  match userFindUnique db id with
  | none => .error (.notFound ("User with ID " ++ toString id ++ " not found"))
  | some u => .ok ⟨u, if includeTodos then some (joinTodos db u) else none⟩

/-- `UserService.update` (user.service.ts): `findOne(id)` first (throwing
its 404), then `prisma.user.update` with the partial dto. -/
def UserService.update (db : DB) (id : Nat) (dto : UpdateUserDto) :
    Except ApiError UserView × DB :=
  match userFindUnique db id with
  | none =>
      (.error (.notFound ("User with ID " ++ toString id ++ " not found")), db)
  | some u =>
      let u' : User := { u with name := dto.name.getD u.name, updatedAt := db.now }
      let db' := { db with users := db.users.map (fun x => if x.id == id then u' else x), now := db.now + 1 }
      (.ok ⟨u', none⟩, db')

/-- `UserService.remove` (user.service.ts): `findOne(id)` first (throwing
its 404), then `prisma.user.delete`; the Todo cascade happens inside the
storage-layer call `userDeleteRow`, not in this service. -/
def UserService.remove (db : DB) (id : Nat) :
    Except ApiError UserView × DB :=
  match userFindUnique db id with
  | none =>
      (.error (.notFound ("User with ID " ++ toString id ++ " not found")), db)
  | some u =>
      (.ok ⟨u, none⟩, userDeleteRow db id)

/-- `GET /todos` (todo.controller.ts): the optional query parameters are
passed as `findAll(userId, includeUser !== false)` — an absent includeUser
defaults to true. -/
def TodoController.findAll (db : DB) (userId : Option Nat) (includeUser : Option Bool) :
    List TodoView :=
  TodoService.findAll db userId (includeUser != some false)

/-- `GET /todos/:id` (todo.controller.ts): `findOne(id, includeUser !== false)`. -/
def TodoController.findOne (db : DB) (id : Nat) (includeUser : Option Bool) :
    Except ApiError TodoView :=
  TodoService.findOne db id (includeUser != some false)

/-- `GET /users` (user.controller.ts): `findAll(includeTodos || false)` —
an absent includeTodos defaults to false. -/
def UserController.findAll (db : DB) (includeTodos : Option Bool) :
    List UserView :=
  UserService.findAll db (includeTodos.getD false)

/-- `GET /users/:id` (user.controller.ts): `findOne(id, includeTodos || false)`. -/
def UserController.findOne (db : DB) (id : Nat) (includeTodos : Option Bool) :
    Except ApiError UserView :=
  UserService.findOne db id (includeTodos.getD false)

/-- Modelled from the spec: the DTO field whitelists. The global
`ValidationPipe` of src/main.ts is configured with `whitelist: true` and
`forbidNonWhitelisted: true`; the decorated Todo body fields are
{title, completed, userId} and the decorated User body field is {name}
(the CreateTodoDto source file is not in the tree; its field list is taken
from the spec and the controller documentation). -/
def todoDtoKeys : List String := ["title", "completed", "userId"]

/-- Modelled from the spec: the User DTO whitelist (create-user.dto.ts
declares the single decorated field `name`). -/
def userDtoKeys : List String := ["name"]

/-- Modelled from the spec: the global ValidationPipe with
`forbidNonWhitelisted: true` rejects a request body carrying any key
outside the DTO whitelist with a 400 Bad Request, before the handler runs. -/
def validateBodyKeys (allowed : List String) (bodyKeys : List String) :
    Except ApiError Unit :=
  if bodyKeys.all (fun k => decide (k ∈ allowed)) then .ok ()
  else .error (.badRequest "non-whitelisted property should not exist")

/-- Modelled from the spec: the `POST /todos` pipeline — the ValidationPipe
runs on the raw body keys first; only a body that passes reaches
`TodoService.create`. -/
def TodoEndpoint.create (db : DB) (bodyKeys : List String) (dto : CreateTodoDto) :
    Except ApiError TodoView × DB :=
  match validateBodyKeys todoDtoKeys bodyKeys with
  | .error e => (.error e, db)
  | .ok _ => TodoService.create db dto

/-- Modelled from the spec: the `POST /users` pipeline — ValidationPipe
first, then `UserService.create`. -/
def UserEndpoint.create (db : DB) (bodyKeys : List String) (dto : CreateUserDto) :
    Except ApiError UserView × DB :=
  match validateBodyKeys userDtoKeys bodyKeys with
  | .error e => (.error e, db)
  | .ok _ =>
      let (v, db') := UserService.create db dto
      (.ok v, db')

/-- Referential integrity of a store: every Todo's `userId` names an
existing User (the `Todo_userId_fkey` constraint of migration.sql). -/
def DB.wf (db : DB) : Bool :=
  db.todos.all (fun t => (userFindUnique db t.userId).isSome)

/-- A concrete User row used by the witnesses. -/
def uAnn : User := { id := 1, name := "Ann", createdAt := 0, updatedAt := 0 }

/-- A concrete Todo row owned by `uAnn`, used by the witnesses. -/
def tMilk : Todo :=
  { id := 1, title := "Buy milk", completed := false, userId := 1, createdAt := 1, updatedAt := 1 }

/-- A one-user, one-todo store used as concrete input by the witnesses. -/
def dbEx : DB :=
  { users := [uAnn]
    todos := [tMilk]
    nextUserId := 2
    nextTodoId := 2
    now := 2 }

/-- A store with two users and three todos (two owned by user 1). -/
def dbEx2 : DB :=
  { users :=
      [{ id := 1, name := "Ann", createdAt := 0, updatedAt := 0 },
       { id := 2, name := "Bob", createdAt := 1, updatedAt := 1 }]
    todos :=
      [{ id := 1, title := "a", completed := false, userId := 1, createdAt := 2, updatedAt := 2 },
       { id := 2, title := "b", completed := true, userId := 2, createdAt := 3, updatedAt := 3 },
       { id := 3, title := "c", completed := false, userId := 1, createdAt := 4, updatedAt := 4 }]
    nextUserId := 3
    nextTodoId := 4
    now := 5 }

/-- The empty store. -/
def dbEmpty : DB :=
  { users := [], todos := [], nextUserId := 1, nextTodoId := 1, now := 0 }

/-- C1: Todo create — when no User with `dto.userId` exists, the call fails
with a 400 `BadRequestException` whose message names the missing user id and
the store is unchanged; when the user exists, a Todo with the given title is
inserted, `completed` defaults to false when unspecified, and the response
is the new record with its owning User embedded. -/
theorem claim1_create_checks_user_and_inserts (db : DB) (dto : CreateTodoDto) :
    (userFindUnique db dto.userId = none →
       TodoService.create db dto =
         (.error (.badRequest ("User with ID " ++ toString dto.userId ++ " not found")), db)) ∧
    (∀ u, userFindUnique db dto.userId = some u →
       TodoService.create db dto =
         (let t : Todo :=
            { id := db.nextTodoId
              title := dto.title
              completed := dto.completed.getD false
              userId := dto.userId
              createdAt := db.now
              updatedAt := db.now }
          (.ok ⟨t, some u⟩,
           { db with todos := db.todos ++ [t], nextTodoId := db.nextTodoId + 1, now := db.now + 1 }))) := by
  constructor
  · intro h
    simp [TodoService.create, h]
  · intro u hu
    simp only [userFindUnique] at hu
    simp [TodoService.create, todoCreateRow, joinUser, userFindUnique, hu]

/-- Witness for C1 at concrete inputs: the missing-user failure on the empty
store, and a successful insert on `dbEx`. -/
theorem claim1_witness :
    TodoService.create dbEmpty ⟨"X", none, 7⟩ =
      (.error (.badRequest ("User with ID " ++ toString 7 ++ " not found")), dbEmpty) ∧
    TodoService.create dbEx ⟨"Walk dog", none, 1⟩ =
      (.ok ⟨{ id := 2, title := "Walk dog", completed := false, userId := 1,
              createdAt := 2, updatedAt := 2 }, some uAnn⟩,
       { dbEx with todos := dbEx.todos ++ [{ id := 2, title := "Walk dog", completed := false,
                                             userId := 1, createdAt := 2, updatedAt := 2 }],
                   nextTodoId := 3, now := 3 }) :=
  ⟨(claim1_create_checks_user_and_inserts dbEmpty ⟨"X", none, 7⟩).1 rfl,
   (claim1_create_checks_user_and_inserts dbEx ⟨"Walk dog", none, 1⟩).2 uAnn rfl⟩

/-- C4: for an id absent from the Todo table, `findOne`, `update` and
`remove` all fail with the 404 `NotFoundException`, and `update`/`remove`
return the store exactly as it was. -/
theorem claim4_missing_todo_404_no_mutation (db : DB) (id : Nat)
    (includeUser : Bool) (dto : UpdateTodoDto)
    (h : todoFindUnique db id = none) :
    TodoService.findOne db id includeUser =
      .error (.notFound ("Todo with ID " ++ toString id ++ " not found")) ∧
    TodoService.update db id dto =
      (.error (.notFound ("Todo with ID " ++ toString id ++ " not found")), db) ∧
    TodoService.remove db id =
      (.error (.notFound ("Todo with ID " ++ toString id ++ " not found")), db) := by
  refine ⟨?_, ?_, ?_⟩ <;> simp [TodoService.findOne, TodoService.update, TodoService.remove, h]

/-- Witness for C4 at id 99, absent from `dbEx`. -/
theorem claim4_witness :
    TodoService.findOne dbEx 99 true =
      .error (.notFound ("Todo with ID " ++ toString 99 ++ " not found")) ∧
    TodoService.update dbEx 99 ⟨none, some true, none⟩ =
      (.error (.notFound ("Todo with ID " ++ toString 99 ++ " not found")), dbEx) ∧
    TodoService.remove dbEx 99 =
      (.error (.notFound ("Todo with ID " ++ toString 99 ++ " not found")), dbEx) :=
  claim4_missing_todo_404_no_mutation dbEx 99 true ⟨none, some true, none⟩ rfl

/-- C5: for a `uid` absent from the User table, Todo create with that owner
fails with the 400 referential `BadRequestException`, and Todo update on an
existing Todo whose partial carries that owner fails the same way; in both
cases the returned store is exactly the input store — nothing was inserted
or mutated. -/
theorem claim5_missing_user_400_atomic (db : DB) (uid : Nat)
    (hu : userFindUnique db uid = none) :
    (∀ dto : CreateTodoDto, dto.userId = uid →
       TodoService.create db dto =
         (.error (.badRequest ("User with ID " ++ toString uid ++ " not found")), db)) ∧
    (∀ (id : Nat) (t : Todo) (dto : UpdateTodoDto),
       todoFindUnique db id = some t → dto.userId = some uid →
       TodoService.update db id dto =
         (.error (.badRequest ("User with ID " ++ toString uid ++ " not found")), db)) := by
  constructor
  · intro dto hdto
    simp [TodoService.create, hdto, hu]
  · intro id t dto ht hdto
    simp [TodoService.update, ht, hdto, hu]

/-- Witness for C5: user 999 does not exist in `dbEx`. -/
theorem claim5_witness :
    TodoService.create dbEx ⟨"X", none, 999⟩ =
      (.error (.badRequest ("User with ID " ++ toString 999 ++ " not found")), dbEx) ∧
    TodoService.update dbEx 1 ⟨none, none, some 999⟩ =
      (.error (.badRequest ("User with ID " ++ toString 999 ++ " not found")), dbEx) :=
  ⟨(claim5_missing_user_400_atomic dbEx 999 rfl).1 ⟨"X", none, 999⟩ rfl,
   (claim5_missing_user_400_atomic dbEx 999 rfl).2 1 tMilk ⟨none, none, some 999⟩ rfl rfl⟩

/-- C2: Todo update — the 404 check on the Todo runs first and takes
precedence over the referenced-user check; a partial carrying a missing
`userId` then fails with the same 400 message shape as create; otherwise
exactly the supplied subset of {title, completed, userId} is applied,
`updatedAt` is refreshed to the write time, and the updated record comes
back with its owning User embedded. -/
theorem claim2_update_semantics (db : DB) (id : Nat) (dto : UpdateTodoDto)
    (hwf : db.wf = true) :
    (todoFindUnique db id = none →
       TodoService.update db id dto =
         (.error (.notFound ("Todo with ID " ++ toString id ++ " not found")), db)) ∧
    (∀ t, todoFindUnique db id = some t →
       (∀ uid, dto.userId = some uid → userFindUnique db uid = none →
          TodoService.update db id dto =
            (.error (.badRequest ("User with ID " ++ toString uid ++ " not found")), db)) ∧
       ((match dto.userId with
         | some uid => (userFindUnique db uid).isSome
         | none => true) = true →
          TodoService.update db id dto =
            (.ok ⟨applyTodoUpdate t dto db.now,
                  userFindUnique db ((applyTodoUpdate t dto db.now).userId)⟩,
             todoWriteBack db id (applyTodoUpdate t dto db.now)) ∧
          (applyTodoUpdate t dto db.now).title = dto.title.getD t.title ∧
          (applyTodoUpdate t dto db.now).completed = dto.completed.getD t.completed ∧
          (applyTodoUpdate t dto db.now).userId = dto.userId.getD t.userId ∧
          (applyTodoUpdate t dto db.now).updatedAt = db.now ∧
          (userFindUnique db ((applyTodoUpdate t dto db.now).userId)).isSome = true)) := by
  constructor
  · intro h
    simp [TodoService.update, h]
  · intro t ht
    constructor
    · intro uid hdto hu
      simp [TodoService.update, ht, hdto, hu]
    · intro hok
      have hmem : t ∈ db.todos := List.mem_of_find?_eq_some ht
      have hwf' : (userFindUnique db t.userId).isSome = true := by
        have := List.all_eq_true.mp hwf t hmem
        simpa using this
      cases hdto : dto.userId with
      | none =>
          refine ⟨?_, rfl, rfl, ?_, rfl, ?_⟩
          · simp [TodoService.update, ht, hdto, joinUser, todoWriteBack,
                  applyTodoUpdate, userFindUnique]
          · simp [applyTodoUpdate, hdto]
          · simpa [applyTodoUpdate, hdto] using hwf'
      | some uid =>
          rw [hdto] at hok
          obtain ⟨w, hw⟩ := Option.isSome_iff_exists.mp hok
          refine ⟨?_, rfl, rfl, ?_, rfl, ?_⟩
          · simp only [userFindUnique] at hw
            simp [TodoService.update, ht, hdto, joinUser, todoWriteBack,
                  applyTodoUpdate, userFindUnique, hw]
          · simp [applyTodoUpdate, hdto]
          · simpa [applyTodoUpdate, hdto, userFindUnique] using Option.isSome_iff_exists.mpr ⟨w, hw⟩

/-- Witness for C2: a successful partial update of `tMilk` in `dbEx` that
supplies only title and completed. -/
theorem claim2_witness :
    TodoService.update dbEx 1 ⟨some "New", some true, none⟩ =
      (.ok ⟨applyTodoUpdate tMilk ⟨some "New", some true, none⟩ dbEx.now,
            userFindUnique dbEx ((applyTodoUpdate tMilk ⟨some "New", some true, none⟩ dbEx.now).userId)⟩,
       todoWriteBack dbEx 1 (applyTodoUpdate tMilk ⟨some "New", some true, none⟩ dbEx.now)) ∧
    (applyTodoUpdate tMilk ⟨some "New", some true, none⟩ dbEx.now).updatedAt = dbEx.now :=
  ⟨((((claim2_update_semantics dbEx 1 ⟨some "New", some true, none⟩ rfl).2 tMilk rfl).2) rfl).1,
   ((((claim2_update_semantics dbEx 1 ⟨some "New", some true, none⟩ rfl).2 tMilk rfl).2) rfl).2.2.2.2.1⟩

/-- C3 counterexample: `findAll` with the provided filter value `userId = 0`
does NOT return "exactly the Todos owned by that userId". `dbEx` holds no
Todo owned by user 0, so the filtered result ought to be empty, but the
service's JavaScript truthiness test (`userId ? { userId } : undefined`)
drops the filter for 0 and returns every Todo. -/
theorem claim3_counterexample :
    (TodoService.findAll dbEx (some 0) true).map TodoView.todo ≠
      dbEx.todos.filter (fun t => t.userId == 0) := by
  decide

/-- C3 as amended: the result of `findAll` is a permutation of the whole
Todo table filtered to the owner only when the provided `userId` is nonzero
(a provided `userId = 0`, being falsy, is treated like an absent filter);
the result is ordered by `createdAt` descending; and each record embeds its
User exactly when `includeUser` is true. -/
theorem claim3_amended_list_semantics (db : DB) (userId : Option Nat)
    (includeUser : Bool) :
    ((TodoService.findAll db userId includeUser).map TodoView.todo).Perm
      (match userId with
       | some uid => if uid != 0 then db.todos.filter (fun t => t.userId == uid) else db.todos
       | none => db.todos) ∧
    (TodoService.findAll db userId includeUser).Pairwise
      (fun a b => b.todo.createdAt ≤ a.todo.createdAt) ∧
    (∀ v ∈ TodoService.findAll db userId includeUser,
       v.user = if includeUser then userFindUnique db v.todo.userId else none) := by
  refine ⟨?_, ?_, ?_⟩
  · simp only [TodoService.findAll, List.map_map]
    have : (TodoView.todo ∘ fun t => (⟨t, if includeUser then joinUser db t else none⟩ : TodoView)) =
        fun t => t := rfl
    rw [this, List.map_id']
    exact List.perm_insertionSort Todo.createdDesc _
  · simp only [TodoService.findAll]
    exact (List.sorted_insertionSort Todo.createdDesc _).map _
      (fun a b h => h)
  · intro v hv
    simp only [TodoService.findAll, List.mem_map] at hv
    obtain ⟨t, _, rfl⟩ := hv
    simp [joinUser]

/-- Witness for C3 (amended) at `dbEx2` with the nonzero filter 1. -/
theorem claim3_witness :
    ((TodoService.findAll dbEx2 (some 1) true).map TodoView.todo).Perm
      (match some 1 with
       | some uid => if uid != 0 then dbEx2.todos.filter (fun t => t.userId == uid) else dbEx2.todos
       | none => dbEx2.todos) :=
  (claim3_amended_list_semantics dbEx2 (some 1) true).1

/-- C6: deleting an existing User removes its row and — inside the single
storage-layer call `userDeleteRow`, via the `Todo_userId_fkey` ON DELETE
CASCADE rule, with no application-level Todo logic in `UserService.remove`
— every Todo row it owns, so that a subsequent Todo `findOne` on any of
those ids fails with the 404 `NotFoundException`. -/
theorem claim6_user_delete_cascades (db : DB) (uid : Nat) (u : User)
    (includeUser : Bool)
    (hu : userFindUnique db uid = some u)
    (hnodup : (db.todos.map Todo.id).Nodup) :
    UserService.remove db uid = (.ok ⟨u, none⟩, userDeleteRow db uid) ∧
    (userDeleteRow db uid).users = db.users.filter (fun x => x.id != uid) ∧
    (userDeleteRow db uid).todos = db.todos.filter (fun t => t.userId != uid) ∧
    (∀ t ∈ db.todos, t.userId = uid →
       TodoService.findOne (userDeleteRow db uid) t.id includeUser =
         .error (.notFound ("Todo with ID " ++ toString t.id ++ " not found"))) := by
  refine ⟨by simp [UserService.remove, hu], rfl, rfl, ?_⟩
  intro t hmem htuid
  have hnone : todoFindUnique (userDeleteRow db uid) t.id = none := by
    simp only [todoFindUnique, userDeleteRow]
    rw [List.find?_eq_none]
    intro x hx
    have hx' := List.mem_filter.mp hx
    intro hxid
    have hxt : x = t :=
      List.inj_on_of_nodup_map hnodup hx'.1 hmem (by simpa using hxid)
    have : x.userId ≠ uid := by simpa using hx'.2
    exact this (hxt ▸ htuid)
  simp [TodoService.findOne, hnone]

/-- Witness for C6: deleting user 1 from `dbEx2` (who owns todos 1 and 3). -/
theorem claim6_witness :
    UserService.remove dbEx2 1 = (.ok ⟨{ id := 1, name := "Ann", createdAt := 0, updatedAt := 0 }, none⟩, userDeleteRow dbEx2 1) ∧
    TodoService.findOne (userDeleteRow dbEx2 1) 1 true =
      .error (.notFound ("Todo with ID " ++ toString 1 ++ " not found")) := by
  have h := claim6_user_delete_cascades dbEx2 1
    { id := 1, name := "Ann", createdAt := 0, updatedAt := 0 } true rfl (by decide)
  exact ⟨h.1, by
    have := h.2.2.2
      { id := 1, title := "a", completed := false, userId := 1, createdAt := 2, updatedAt := 2 }
      (by decide) rfl
    simpa using this⟩

/-- C7: a request body carrying a key outside the operation's DTO whitelist
is rejected with a 400 before the service runs — for both `POST /todos`
(whitelist {title, completed, userId}) and `POST /users` (whitelist {name})
the endpoint returns the validation error and the untouched store, whatever
the store and parsed dto were. -/
theorem claim7_unknown_body_fields_rejected (db : DB) (dtoT : CreateTodoDto)
    (dtoU : CreateUserDto) (ks : List String) (k : String) (hk : k ∈ ks) :
    (k ∉ todoDtoKeys →
       TodoEndpoint.create db ks dtoT =
         (.error (.badRequest "non-whitelisted property should not exist"), db)) ∧
    (k ∉ userDtoKeys →
       UserEndpoint.create db ks dtoU =
         (.error (.badRequest "non-whitelisted property should not exist"), db)) := by
  constructor
  · intro hnk
    have hall : ks.all (fun x => decide (x ∈ todoDtoKeys)) = false := by
      cases hall : ks.all (fun x => decide (x ∈ todoDtoKeys)) with
      | true =>
          exact absurd (of_decide_eq_true (List.all_eq_true.mp hall k hk)) hnk
      | false => rfl
    simp [TodoEndpoint.create, validateBodyKeys, hall]
  · intro hnk
    have hall : ks.all (fun x => decide (x ∈ userDtoKeys)) = false := by
      cases hall : ks.all (fun x => decide (x ∈ userDtoKeys)) with
      | true =>
          exact absurd (of_decide_eq_true (List.all_eq_true.mp hall k hk)) hnk
      | false => rfl
    simp [UserEndpoint.create, validateBodyKeys, hall]

/-- Witness for C7: a body with the undeclared key "isAdmin" is rejected by
both endpoints on `dbEx`. -/
theorem claim7_witness :
    TodoEndpoint.create dbEx ["title", "isAdmin"] ⟨"X", none, 1⟩ =
      (.error (.badRequest "non-whitelisted property should not exist"), dbEx) ∧
    UserEndpoint.create dbEx ["name", "isAdmin"] ⟨"Eve"⟩ =
      (.error (.badRequest "non-whitelisted property should not exist"), dbEx) :=
  ⟨(claim7_unknown_body_fields_rejected dbEx ⟨"X", none, 1⟩ ⟨"Eve"⟩
      ["title", "isAdmin"] "isAdmin" (by decide)).1 (by decide),
   (claim7_unknown_body_fields_rejected dbEx ⟨"X", none, 1⟩ ⟨"Eve"⟩
      ["name", "isAdmin"] "isAdmin" (by decide)).2 (by decide)⟩

/-- C8 round-trip: after a successful Todo create (against a store whose
existing Todo ids do not collide with the fresh autoincrement id), an
immediate `findOne` on the returned id — with no intervening write — yields
the very record the create returned, so every field (including `updatedAt`)
agrees. -/
theorem claim8_create_get_roundtrip (db : DB) (dto : CreateTodoDto) (u : User)
    (hu : userFindUnique db dto.userId = some u)
    (hfresh : ∀ x ∈ db.todos, x.id ≠ db.nextTodoId) :
    ∃ v db', TodoService.create db dto = (.ok v, db') ∧
      TodoService.findOne db' v.todo.id true = .ok v := by
  refine ⟨⟨(todoCreateRow db dto).1, joinUser (todoCreateRow db dto).2 (todoCreateRow db dto).1⟩,
    (todoCreateRow db dto).2, ?_, ?_⟩
  · simp only [userFindUnique] at hu
    simp [TodoService.create, userFindUnique, hu]
  · have hfind : todoFindUnique (todoCreateRow db dto).2 (todoCreateRow db dto).1.id =
        some (todoCreateRow db dto).1 := by
      simp only [todoFindUnique, todoCreateRow, List.find?_append]
      have hleft : db.todos.find? (fun x => x.id == db.nextTodoId) = none := by
        rw [List.find?_eq_none]
        intro x hx
        simpa using hfresh x hx
      simp [hleft]
    simp [TodoService.findOne, hfind]

/-- Witness for C8 on `dbEx`. -/
theorem claim8_witness :
    ∃ v db', TodoService.create dbEx ⟨"Walk dog", some true, 1⟩ = (.ok v, db') ∧
      TodoService.findOne db' v.todo.id true = .ok v :=
  claim8_create_get_roundtrip dbEx ⟨"Walk dog", some true, 1⟩ uAnn rfl (by decide)

/-- Every record returned by `TodoService.findAll` is a row of the Todo
table, carrying the joined User exactly when `includeUser` was set. -/
theorem TodoService.mem_findAll {db : DB} {userId : Option Nat}
    {includeUser : Bool} {v : TodoView}
    (hv : v ∈ TodoService.findAll db userId includeUser) :
    v.todo ∈ db.todos ∧
    v.user = (if includeUser then joinUser db v.todo else none) := by
  simp only [TodoService.findAll, List.mem_map] at hv
  obtain ⟨t, ht, rfl⟩ := hv
  have hf := (List.perm_insertionSort Todo.createdDesc _).mem_iff.mp ht
  have hmem : t ∈ db.todos := by
    cases userId with
    | none => exact hf
    | some uid =>
        by_cases h0 : (uid != 0) = true
        · simp only [h0, if_true] at hf
          exact (List.mem_filter.mp hf).1
        · simp only [Bool.not_eq_true] at h0
          simp only [h0, Bool.false_eq_true, if_false] at hf
          exact hf
  exact ⟨hmem, rfl⟩

/-- C9: the relation-embedding defaults differ between the two resources.
An absent `includeUser` query parameter makes the Todo controller call its
service with `includeUser = true` while an absent `includeTodos` makes the
User controller call its service with `includeTodos = false`; explicit
values are honored; and the service-side flag is exactly what decides
whether the User (resp. the Todo list) is embedded in each returned record. -/
theorem claim9_include_defaults (db : DB) (uid0 : Option Nat) (id : Nat)
    (hwf : db.wf = true) :
    TodoController.findAll db uid0 none = TodoService.findAll db uid0 true ∧
    TodoController.findAll db uid0 (some false) = TodoService.findAll db uid0 false ∧
    TodoController.findOne db id none = TodoService.findOne db id true ∧
    TodoController.findOne db id (some false) = TodoService.findOne db id false ∧
    UserController.findAll db none = UserService.findAll db false ∧
    UserController.findAll db (some true) = UserService.findAll db true ∧
    UserController.findOne db id none = UserService.findOne db id false ∧
    UserController.findOne db id (some true) = UserService.findOne db id true ∧
    (∀ v ∈ TodoService.findAll db uid0 true, v.user.isSome = true) ∧
    (∀ v ∈ TodoService.findAll db uid0 false, v.user = none) ∧
    (∀ v, TodoService.findOne db id true = .ok v → v.user.isSome = true) ∧
    (∀ v, TodoService.findOne db id false = .ok v → v.user = none) ∧
    (∀ v ∈ UserService.findAll db false, v.todos = none) ∧
    (∀ v ∈ UserService.findAll db true, v.todos.isSome = true) ∧
    (∀ v, UserService.findOne db id false = .ok v → v.todos = none) ∧
    (∀ v, UserService.findOne db id true = .ok v → v.todos.isSome = true) := by
  refine ⟨rfl, rfl, rfl, rfl, rfl, rfl, rfl, rfl, ?_, ?_, ?_, ?_, ?_, ?_, ?_, ?_⟩
  · intro v hv
    obtain ⟨hmem, huser⟩ := TodoService.mem_findAll hv
    have hs := List.all_eq_true.mp hwf v.todo hmem
    rw [huser]
    simpa [joinUser] using hs
  · intro v hv
    simpa using (TodoService.mem_findAll hv).2
  · intro v hv
    cases hfind : todoFindUnique db id with
    | none => simp [TodoService.findOne, hfind] at hv
    | some t =>
        simp only [TodoService.findOne, hfind, if_true] at hv
        cases hv
        have hmem : t ∈ db.todos := List.mem_of_find?_eq_some hfind
        have hs := List.all_eq_true.mp hwf t hmem
        simpa [joinUser] using hs
  · intro v hv
    cases hfind : todoFindUnique db id with
    | none => simp [TodoService.findOne, hfind] at hv
    | some t =>
        simp only [TodoService.findOne, hfind] at hv
        cases hv
        rfl
  · intro v hv
    simp only [UserService.findAll, List.mem_map] at hv
    obtain ⟨u, _, rfl⟩ := hv
    rfl
  · intro v hv
    simp only [UserService.findAll, List.mem_map] at hv
    obtain ⟨u, _, rfl⟩ := hv
    rfl
  · intro v hv
    cases hfind : userFindUnique db id with
    | none => simp [UserService.findOne, hfind] at hv
    | some u =>
        simp only [UserService.findOne, hfind] at hv
        cases hv
        rfl
  · intro v hv
    cases hfind : userFindUnique db id with
    | none => simp [UserService.findOne, hfind] at hv
    | some u =>
        simp only [UserService.findOne, hfind] at hv
        cases hv
        rfl

/-- Witness for C9 on `dbEx`: the deleted-flag defaults at work — the Todo
get with no query flag embeds Ann, the User get with no query flag embeds
no todos. -/
theorem claim9_witness :
    TodoController.findOne dbEx 1 none = TodoService.findOne dbEx 1 true ∧
    UserController.findOne dbEx 1 none = UserService.findOne dbEx 1 false :=
  ⟨(claim9_include_defaults dbEx none 1 rfl).2.2.1,
   (claim9_include_defaults dbEx none 1 rfl).2.2.2.2.2.2.1⟩

/-- C10: for an existing Todo id, `remove` returns the pre-delete row with
NO `user` key (the `prisma.todo.delete` call carries no `include`), whereas
`create`, default `get`, and `update` all return the record with its owning
User embedded. -/
theorem claim10_remove_shape_lacks_user (db : DB) (id : Nat) (t : Todo)
    (ht : todoFindUnique db id = some t) (hwf : db.wf = true) :
    TodoService.remove db id = (.ok ⟨t, none⟩, todoDeleteRow db id) ∧
    (∃ u, TodoService.findOne db id true = .ok ⟨t, some u⟩) ∧
    (∀ dto v db', TodoService.update db id dto = (.ok v, db') → v.user.isSome = true) ∧
    (∀ dto v db', TodoService.create db dto = (.ok v, db') → v.user.isSome = true) := by
  have hmem : t ∈ db.todos := List.mem_of_find?_eq_some ht
  have hs : (userFindUnique db t.userId).isSome = true := by
    simpa using List.all_eq_true.mp hwf t hmem
  obtain ⟨u, hu⟩ := Option.isSome_iff_exists.mp hs
  refine ⟨by simp [TodoService.remove, ht], ⟨u, ?_⟩, ?_, ?_⟩
  · simp [TodoService.findOne, ht, joinUser, hu]
  · intro dto v db' hupd
    cases hdto : dto.userId with
    | none =>
        simp only [TodoService.update, ht, hdto] at hupd
        obtain ⟨hv, _⟩ := Prod.mk.injEq .. ▸ hupd
        cases hupd
        simp only [userFindUnique] at hu
        simp [joinUser, todoWriteBack, applyTodoUpdate, hdto, userFindUnique, hu]
    | some uid =>
        cases huid : userFindUnique db uid with
        | none => simp [TodoService.update, ht, hdto, huid] at hupd
        | some w =>
            simp only [TodoService.update, ht, hdto, huid] at hupd
            cases hupd
            simp only [userFindUnique] at huid
            simp [joinUser, todoWriteBack, applyTodoUpdate, hdto, userFindUnique, huid]
  · intro dto v db' hcre
    cases hcu : userFindUnique db dto.userId with
    | none => simp [TodoService.create, hcu] at hcre
    | some w =>
        simp only [TodoService.create, hcu] at hcre
        cases hcre
        simp only [userFindUnique] at hcu
        simp [joinUser, todoCreateRow, userFindUnique, hcu]

/-- Witness for C10 on `dbEx`: deleting todo 1 returns it bare, getting it
returns it with Ann embedded. -/
theorem claim10_witness :
    TodoService.remove dbEx 1 = (.ok ⟨tMilk, none⟩, todoDeleteRow dbEx 1) ∧
    (∃ u, TodoService.findOne dbEx 1 true = .ok ⟨tMilk, some u⟩) :=
  ⟨(claim10_remove_shape_lacks_user dbEx 1 tMilk rfl rfl).1,
   (claim10_remove_shape_lacks_user dbEx 1 tMilk rfl rfl).2.1⟩
